import Mathlib

/-!
Verification of the consistency-advanced core of the Scrapper repository:
normalization, subsumption, alignment and mismatch detection
(src/consistency_advanced/{ontology,normalize,validate,reason,pipeline}).

Python floats are embedded as exact unnormalized fractions (`QF`), strings as
Lean strings manipulated through their character lists, dictionaries as
insertion-ordered association lists with last-write-wins update (the semantics
of Python dicts), and JSON documents as an explicit inductive value type.
All definitions are executable so that concrete runs evaluate by `decide`.
-/

/-- Exact fraction with positive denominator by construction at every use
site; embeds Python float arithmetic (all constants in the source are exact
decimals, so fraction arithmetic agrees with the intent of the scores). -/
structure QF where
  num : Int
  den : Int
deriving DecidableEq, Repr

/-- Build the fraction n/d. -/
def qf (n d : Int) : QF := ⟨n, d⟩

/-- Addition of fractions without normalization. -/
def QF.add (a b : QF) : QF := ⟨a.num * b.den + b.num * a.den, a.den * b.den⟩

/-- Subtraction of fractions without normalization. -/
def QF.sub (a b : QF) : QF := ⟨a.num * b.den - b.num * a.den, a.den * b.den⟩

/-- Multiplication of fractions. -/
def QF.mul (a b : QF) : QF := ⟨a.num * b.num, a.den * b.den⟩

/-- Division of fractions (used only with positive divisors). -/
def QF.div (a b : QF) : QF := ⟨a.num * b.den, a.den * b.num⟩

/-- Strict order by cross multiplication (valid for positive denominators). -/
def QF.lt (a b : QF) : Bool := a.num * b.den < b.num * a.den

/-- Non-strict order by cross multiplication. -/
def QF.le (a b : QF) : Bool := a.num * b.den ≤ b.num * a.den

/-- Value equality of fractions by cross multiplication. -/
def QF.eqv (a b : QF) : Bool := a.num * b.den == b.num * a.den

/-- Python `\s` for the ASCII range: space, tab, newline, return, vertical
tab, form feed. -/
def isPyWS (c : Char) : Bool :=
  c == ' ' || c == '\t' || c == '\n' || c == '\r' || c == '\x0b' || c == '\x0c'

/-- ASCII lower-casing of one character, as `str.lower` acts on ASCII. -/
def pyLowerChar (c : Char) : Char :=
  if 'A' ≤ c && c ≤ 'Z' then Char.ofNat (c.toNat + 32) else c

/-- `str.lower()` over the character list of a string (ASCII range). -/
def pyLower (s : String) : String := String.mk (s.data.map pyLowerChar)

/-- `str.strip()`: drop leading and trailing whitespace. -/
def stripChars (l : List Char) : List Char :=
  ((l.dropWhile isPyWS).reverse.dropWhile isPyWS).reverse

/-- `str.strip()` on a string. -/
def pyStrip (s : String) : String := String.mk (stripChars s.data)

/-- Substring containment: Python `sub in hay`. -/
def strIn (sub hay : String) : Bool :=
  hay.data.tails.any (fun t => sub.data.isPrefixOf t)

/-- Python `str.endswith`. -/
def strEndsWith (s suf : String) : Bool := suf.data.isSuffixOf s.data

/-- Python `str.startswith`. -/
def strStartsWith (s pre : String) : Bool := pre.data.isPrefixOf s.data

/-- `str(x)` for an optional string, as Python renders `None`. -/
def pyShowOpt : Option String → String
  | none => "None"
  | some s => s

/-- Truthiness of an optional string: `None` and the empty string are falsy. -/
def pyTruthy : Option String → Bool
  | none => false
  | some s => s ≠ ""

/-- `uri.split(":", 1)[-1]`: the text after the first colon, or the whole
string when no colon occurs. -/
def splitColonTail (s : String) : String :=
  if s.data.contains ':' then
    String.mk ((s.data.dropWhile (fun c => c ≠ ':')).drop 1)
  else s

/-- `uri.split(":", 1)[0]` when a colon occurs: the facet before the colon. -/
def splitColonHead (s : String) : String :=
  String.mk (s.data.takeWhile (fun c => c ≠ ':'))

/-- `str.replace("_", " ")`. -/
def underscoreToSpace (s : String) : String :=
  String.mk (s.data.map (fun c => if c == '_' then ' ' else c))

/-- Python-dict insertion over an insertion-ordered association list: an
existing key keeps its position and gets the new value, a new key is
appended. -/
def pyDictInsert {α : Type} (m : List (String × α)) (k : String) (v : α) :
    List (String × α) :=
  if m.any (fun kv => kv.1 == k) then
    m.map (fun kv => if kv.1 == k then (k, v) else kv)
  else m ++ [(k, v)]

/-- Python `dict.get`. -/
def pyDictGet {α : Type} (m : List (String × α)) (k : String) : Option α :=
  (m.find? (fun kv => kv.1 == k)).map (fun kv => kv.2)

/-- Python `dict.setdefault` restricted to its effect on the mapping. -/
def pyDictSetD {α : Type} (m : List (String × α)) (k : String) (v : α) :
    List (String × α) :=
  if m.any (fun kv => kv.1 == k) then m else m ++ [(k, v)]

/-- Build a Python dict from a sequence of key/value pairs, later pairs
overwriting earlier ones (dict comprehension semantics). -/
def pyDictOf {α : Type} (pairs : List (String × α)) : List (String × α) :=
  pairs.foldl (fun m kv => pyDictInsert m kv.1 kv.2) []

/-- Sorted insertion for `sorted(...)` over strings (code-point order, the
order Python uses on str). -/
def sortedInsert (x : String) : List String → List String
  | [] => [x]
  | y :: ys => if decide (y < x) then y :: sortedInsert x ys else x :: y :: ys

/-- Python `sorted(...)` on a list of strings. -/
def pySorted (l : List String) : List String := l.foldr sortedInsert []

/-- Deduplication keeping first occurrences, with the already-seen keys as an
accumulator. -/
def dedupGo (seen : List String) : List String → List String
  | [] => []
  | x :: xs => if seen.contains x then dedupGo seen xs
               else x :: dedupGo (x :: seen) xs

/-- Deduplication modelling `set(...)` before a `sorted(...)` (the resulting
sorted list does not depend on set iteration order). -/
def dedupFirst (l : List String) : List String := dedupGo [] l

/-- JSON values as loaded by `json.load`. -/
inductive JVal where
  | null : JVal
  | bool (b : Bool) : JVal
  | num (n : Int) : JVal
  | str (s : String) : JVal
  | arr (xs : List JVal) : JVal
  | obj (fields : List (String × JVal)) : JVal

/-- Python truthiness of a JSON value. -/
def jTruthy : JVal → Bool
  | .null => false
  | .bool b => b
  | .num n => n ≠ 0
  | .str s => s ≠ ""
  | .arr xs => ¬ xs.isEmpty
  | .obj fs => ¬ fs.isEmpty

/-- `dict.get(k)` on a JSON object (`none` when absent or not an object). -/
def jGet (v : JVal) (k : String) : Option JVal :=
  match v with
  | .obj fs => (fs.find? (fun kv => kv.1 == k)).map (fun kv => kv.2)
  | _ => none

/-- `dict.get(k, d)` on a JSON object. -/
def jGetD (v : JVal) (k : String) (d : JVal) : JVal := (jGet v k).getD d

/-- View a JSON value as a list (empty for non-arrays). -/
def asArr : JVal → List JVal
  | .arr xs => xs
  | _ => []

/-- View a JSON value as an object field list (empty otherwise). -/
def asObj : JVal → List (String × JVal)
  | .obj fs => fs
  | _ => []

/-- `str(...)` of a scalar JSON value, as the loader applies it to URIs and
labels (vocabulary files hold strings here). -/
def jStr : JVal → String
  | .str s => s
  | .bool true => "True"
  | .bool false => "False"
  | .null => "None"
  | .num n => toString n
  | .arr _ => ""
  | .obj _ => ""

/-- Python `x or y` over optional JSON values: the first operand when it is
truthy, otherwise the second. -/
def jOr (x y : Option JVal) : Option JVal :=
  match x with
  | some v => if jTruthy v then some v else y
  | none => y

/-- Truthiness of an optional JSON value. -/
def jOptTruthy (x : Option JVal) : Bool :=
  match x with
  | some v => jTruthy v
  | none => false

/-!
Data model, from src/consistency_advanced/core/models.py.
-/

/-- models.py `TextSpan`. -/
structure TextSpan where
  policy_id : String
  section_id : String
  section_path : String
  start_char : Int
  end_char : Int
  quote : String
deriving DecidableEq, Repr

/-- models.py `LabeledSpan`. -/
structure LabeledSpan where
  label : String
  evidence : Option String
deriving DecidableEq, Repr

/-- models.py `OperationCandidate`. -/
structure OperationCandidate where
  op_id : String
  statement_id : String
  action : Option LabeledSpan
  subject : Option LabeledSpan
  view : Option LabeledSpan
  purposes : List LabeledSpan
  recipient : Option LabeledSpan := none
  source : Option LabeledSpan := none
  legal_basis : Option LabeledSpan := none
  manner : Option LabeledSpan := none
  temporal : Option LabeledSpan := none
  localisation : Option LabeledSpan := none
  evidence_spans : List TextSpan := []
deriving DecidableEq, Repr

/-- models.py `NormalizedField`; confidence is an exact fraction. -/
structure NormalizedField where
  raw_label : Option String
  normalized_uri : Option String
  confidence : QF
  reason : String
deriving DecidableEq, Repr

/-- models.py `NormalizedOperation`. -/
structure NormalizedOperation where
  op_id : String
  statement_id : String
  policy_id : String
  action : NormalizedField
  subject : NormalizedField
  view : NormalizedField
  purposes : List NormalizedField
  recipient : Option NormalizedField
  source : Option NormalizedField
  legal_basis : Option NormalizedField
  manner : Option NormalizedField
  temporal : Option NormalizedField
  localisation : Option NormalizedField
  evidence_spans : List TextSpan
  original : OperationCandidate
deriving DecidableEq, Repr

/-- models.py `ValidationIssue`. -/
structure ValidationIssue where
  issue_id : String
  level : String
  message : String
  op_id : String
  policy_id : String
deriving DecidableEq, Repr

/-- models.py `AlignedPair`. -/
structure AlignedPair where
  fp_op_id : String
  tp_op_id : String
  score : QF
  reasons : List String
deriving DecidableEq, Repr

/-- The metadata dict attached to a finding; the union of the keys the five
branches of `find_mismatches` write, absent keys as `none`. -/
structure FindingMetadata where
  alignment_score : Option QF := none
  reasons : Option (List String) := none
  subtype : Option String := none
  extra_tp_purposes : Option (List String) := none
  fp_purposes : Option (List String) := none
  tp_purposes : Option (List String) := none
  fp_legal_basis : Option String := none
  tp_legal_basis : Option String := none
deriving DecidableEq, Repr

/-- models.py `ComplianceFinding`. -/
structure ComplianceFinding where
  finding_id : String
  finding_type : String
  status : String
  summary : String
  fp_op_id : Option String
  tp_op_id : Option String
  fp_evidence : List TextSpan
  tp_evidence : List TextSpan
  metadata : FindingMetadata
deriving DecidableEq, Repr

/-- models.py `VerificationDecision`. -/
structure VerificationDecision where
  decision : String
  rationale : String
deriving DecidableEq, Repr

/-!
Ontology loader, from src/consistency_advanced/ontology/loader.py.
-/

/-- loader.py `VocabTerm`. -/
structure VocabTerm where
  uri : String
  label : String
  parent : Option String := none
  alt_labels : List String := []
deriving DecidableEq, Repr

/-- loader.py `Vocabulary`. -/
structure Vocabulary where
  actions : List VocabTerm
  subjects : List VocabTerm
  data_categories : List VocabTerm
  purposes : List VocabTerm
  views : List VocabTerm
  recipients : List VocabTerm
  legal_bases : List VocabTerm
  context : List (String × List VocabTerm)
deriving DecidableEq, Repr

/-- loader.py `Vocabulary.label_to_uri`: every label and alt-label mapped to
its URI, later writes winning. -/
def label_to_uri (v : Vocabulary) : List (String × String) :=
  let insertTerm := fun (m : List (String × String)) (t : VocabTerm) =>
    t.alt_labels.foldl (fun m' alt => pyDictInsert m' alt t.uri)
      (pyDictInsert m t.label t.uri)
  let m1 := (v.actions ++ v.subjects ++ v.purposes ++ v.views ++ v.recipients
      ++ v.legal_bases).foldl insertTerm []
  v.context.foldl (fun m kv => kv.2.foldl insertTerm m) m1

/-- loader.py `Vocabulary.parent_map`: uri to parent uri for terms with a
truthy parent. -/
def parent_map (v : Vocabulary) : List (String × String) :=
  let insertTerm := fun (m : List (String × String)) (t : VocabTerm) =>
    if pyTruthy t.parent then pyDictInsert m t.uri (t.parent.getD "") else m
  let m1 := (v.actions ++ v.subjects ++ v.purposes ++ v.views ++ v.recipients
      ++ v.legal_bases).foldl insertTerm []
  v.context.foldl (fun m kv => kv.2.foldl insertTerm m) m1

/-- loader.py `CompatibilityRules`; context-compatibility entries are the raw
JSON rule objects. -/
structure CompatibilityRules where
  purpose_subsumption : List (String × String)
  subject_subsumption : List (String × String)
  context_compatibility : List (String × List JVal)

/-- loader.py `_to_terms`: tolerant conversion of JSON items to terms; an
item without a truthy `uri`/`id` is dropped, a missing label falls back to
`preferred_label` and then to the URI tail after the first colon. -/
def to_terms (items : List JVal) : List VocabTerm :=
  items.filterMap (fun item =>
    let uriv := jOr (jGet item "uri") (jGet item "id")
    if ¬ jOptTruthy uriv then none
    else
      let uri := jStr (uriv.getD .null)
      let labelv := jOr (jOr (jGet item "label") (jGet item "preferred_label"))
        (some (.str (splitColonTail uri)))
      let parentv := jOr (jGet item "parent") (jGet item "parent_id")
      some { uri := uri
             label := jStr (labelv.getD .null)
             parent := if jOptTruthy parentv then some (jStr (parentv.getD .null)) else none
             alt_labels := (asArr (jGetD item "alt_labels" (.arr []))).map jStr })

/-- loader.py `_load_vocab_json`: one document with nested facet arrays;
`subjects` doubles as `data_categories`, recipients and legal bases empty. -/
def load_vocab_json (doc : JVal) : Vocabulary :=
  let context := (asObj (jGetD doc "context" (.obj []))).map
    (fun kv => (kv.1, to_terms (asArr kv.2)))
  let subjects := to_terms (asArr (jGetD doc "subjects" (.arr [])))
  { actions := to_terms (asArr (jGetD doc "actions" (.arr [])))
    subjects := subjects
    data_categories := subjects
    purposes := to_terms (asArr (jGetD doc "purposes" (.arr [])))
    views := to_terms (asArr (jGetD doc "views" (.arr [])))
    recipients := []
    legal_bases := []
    context := context }

/-- loader.py `_load_vocab_dir`: one JSON file per facet; a missing facet
file is a file-system error, as `open` raises in the source. -/
def load_vocab_dir (files : List (String × JVal)) : Except String Vocabulary := do
  let load_terms := fun (name : String) =>
    match pyDictGet files name with
    | none => Except.error ("FileNotFoundError: " ++ name)
    | some payload => Except.ok (to_terms (asArr (jGetD payload "terms" (.arr []))))
  let actions ← load_terms "actions.json"
  let purposes ← load_terms "purposes.json"
  let data_categories ← load_terms "data_categories.json"
  let recipients ← load_terms "recipients.json"
  let legal_bases ← load_terms "legal_bases.json"
  let views ← load_terms "views.json"
  return { actions := actions
           subjects := data_categories
           data_categories := data_categories
           purposes := purposes
           views := views
           recipients := recipients
           legal_bases := legal_bases
           context := [] }

/-- A vocabulary source path: either a directory of per-facet files or a
single file with the given suffix (its parsed document attached). -/
inductive VocabSource where
  | dir (files : List (String × JVal)) : VocabSource
  | file (suffix : String) (doc : JVal) : VocabSource

/-- loader.py `load_vocab`: directory loading for directories, JSON loading
for `.json` files, and a hard error for every other suffix. -/
def load_vocab : VocabSource → Except String Vocabulary
  | .dir files => load_vocab_dir files
  | .file suffix doc =>
    if pyLower suffix ≠ ".json" then
      Except.error "Use vocab.json or vocab/ directory to avoid YAML dependencies."
    else Except.ok (load_vocab_json doc)

/-!
Subsumption and compatibility, from
src/consistency_advanced/ontology/compatibility.py.
-/

/-- compatibility.py `HierarchyIndex` (the rule-edge set as a list). -/
structure HierarchyIndex where
  parent_map : List (String × String)
  derived_edges : List (String × String)
deriving DecidableEq, Repr

/-- compatibility.py `build_hierarchy_index`. -/
def build_hierarchy_index (vocab : Vocabulary) (rules : CompatibilityRules) :
    HierarchyIndex :=
  { parent_map := parent_map vocab
    derived_edges := rules.purpose_subsumption ++ rules.subject_subsumption }

/-- The upward walk of `is_subsumed` with an explicit iteration budget: while
the current node has a parent and was not yet visited, step to the parent and
succeed if it is the sought ancestor.  `none` means the budget ran out. -/
def walkFuel (pm : List (String × String)) (parent : String) :
    Nat → String → List String → Option Bool
  | 0, _, _ => none
  | fuel + 1, current, visited =>
    match pyDictGet pm current with
    | none => some false
    | some next =>
      if current ∈ visited then some false
      else if next == parent then some true
      else walkFuel pm parent fuel next (current :: visited)

/-- compatibility.py `is_subsumed`: reflexive, then explicit rule edges, then
the visited-tracking walk up the parent chain.  The budget
`parent_map.length + 1` is proved sufficient below, so the fuelled walk is the
source's while loop. -/
def is_subsumed (parent child : String) (index : HierarchyIndex) : Bool :=
  if parent == child then true
  else if index.derived_edges.any (fun e => e.1 == parent && e.2 == child) then true
  else (walkFuel index.parent_map parent (index.parent_map.length + 1) child []).getD false

/-- compatibility.py `purpose_in_closure`. -/
def purpose_in_closure (target : String) (allowed : List String)
    (index : HierarchyIndex) : Bool :=
  allowed.any (fun allowed_uri => is_subsumed allowed_uri target index)

/-- Does a rule object match the unordered pair, in either orientation
(`rule.get("a") == a and rule.get("b") == b`, or swapped)? -/
def ruleMatches (rule : JVal) (a b : String) : Bool :=
  let eqStr := fun (v : Option JVal) (s : String) =>
    match v with
    | some (.str t) => t == s
    | _ => false
  (eqStr (jGet rule "a") a && eqStr (jGet rule "b") b) ||
  (eqStr (jGet rule "a") b && eqStr (jGet rule "b") a)

/-- The first matching override entry across the facet-keyed table, in
iteration order. -/
def findContextRule (table : List (String × List JVal)) (a b : String) :
    Option JVal :=
  (table.flatMap (fun kv => kv.2)).find? (fun rule => ruleMatches rule a b)

/-- compatibility.py `is_context_compatible`: null-tolerant, reflexive, then
`bool(rule.get("compatible", False))` on the first matching entry, defaulting
to compatible when no entry matches. -/
def is_context_compatible (a b : Option String) (rules : CompatibilityRules) :
    Bool :=
  match a, b with
  | none, _ => true
  | _, none => true
  | some a', some b' =>
    if a' == b' then true
    else
      match findContextRule rules.context_compatibility a' b' with
      | some rule => jTruthy (jGetD rule "compatible" (.bool false))
      | none => true

/-!
Normalizer, from src/consistency_advanced/normalize/normalize.py.
-/

/-- One pass of `re.sub(r"\s+", " ", ...)`: each maximal whitespace run is
replaced by a single space; the flag records whether the previous character
was inside a run. -/
def collapseWS (insideRun : Bool) : List Char → List Char
  | [] => []
  | c :: rest =>
    if isPyWS c then
      if insideRun then collapseWS true rest else ' ' :: collapseWS true rest
    else c :: collapseWS false rest

/-- The character class of `r"[^a-z0-9_\-\s]"`: kept characters. -/
def canonKeep (c : Char) : Bool :=
  ('a' ≤ c && c ≤ 'z') || ('0' ≤ c && c ≤ '9') || c == '_' || c == '-' || isPyWS c

/-- normalize.py `_canon`: lower-case, strip, replace every character outside
`[a-z0-9_\-\s]` by a space, then collapse whitespace runs to single spaces. -/
def canon (s : String) : String :=
  String.mk (collapseWS false
    ((stripChars (s.data.map pyLowerChar)).map
      (fun c => if canonKeep c then c else ' ')))

/-- normalize.py `_build_index`: canonical label index over every label and
alt-label, then URI-tail-derived fallback keys added with `setdefault`. -/
def build_index (vocab : Vocabulary) : List (String × String) :=
  let mapping := (label_to_uri vocab).foldl
    (fun m kv => pyDictInsert m (canon kv.1) kv.2) []
  let all_terms := vocab.actions ++ vocab.data_categories ++ vocab.purposes
    ++ vocab.views ++ vocab.recipients ++ vocab.legal_bases
  all_terms.foldl
    (fun m term =>
      pyDictSetD m (canon (underscoreToSpace (splitColonTail term.uri))) term.uri)
    mapping

/-- The pluggable chooser: label and enumerated candidate URIs to an optional
pick. -/
def NormalizeChooser : Type := String → List String → Option String

/-- normalize.py `normalize_label`: missing, exact canonical hit,
first bidirectional-containment hit, bounded chooser over enumerated
candidates, otherwise unknown. -/
def normalize_label (label : Option String) (vocab : Vocabulary)
    (fallback_choices : Option (List String)) (chooser : Option NormalizeChooser) :
    NormalizedField :=
  match label with
  | none => { raw_label := none, normalized_uri := none, confidence := qf 0 1, reason := "missing" }
  | some s =>
    if pyStrip s == "" then
      { raw_label := some s, normalized_uri := none, confidence := qf 0 1, reason := "missing" }
    else
      match pyDictGet (build_index vocab) (canon s) with
      | some exact =>
        { raw_label := some s, normalized_uri := some exact, confidence := qf 1 1, reason := "exact_label" }
      | none =>
        match (build_index vocab).find?
            (fun kv => strIn kv.1 (canon s) || strIn (canon s) kv.1) with
        | some kv =>
          { raw_label := some s, normalized_uri := some kv.2, confidence := qf 82 100, reason := "substring_match" }
        | none =>
          match chooser with
          | none =>
            { raw_label := some s, normalized_uri := none, confidence := qf 0 1, reason := "unknown" }
          | some ch =>
            match fallback_choices with
            | none =>
              { raw_label := some s, normalized_uri := none, confidence := qf 0 1, reason := "unknown" }
            | some choices =>
              if choices.isEmpty then
                { raw_label := some s, normalized_uri := none, confidence := qf 0 1, reason := "unknown" }
              else
                match ch s choices with
                | some picked =>
                  if choices.contains picked then
                    { raw_label := some s, normalized_uri := some picked, confidence := qf 7 10, reason := "chooser" }
                  else
                    { raw_label := some s, normalized_uri := none, confidence := qf 0 1, reason := "unknown" }
                | none =>
                  { raw_label := some s, normalized_uri := none, confidence := qf 0 1, reason := "unknown" }

/-- normalize.py `_norm_slot`: the chooser's fallback candidates are the index
URIs restricted to the facet (`uri.startswith(f"{allowed_prefix}:")`),
deduplicated and sorted. -/
def norm_slot (slot_label : Option String) (vocab : Vocabulary) (facet : String)
    (chooser : Option NormalizeChooser) : NormalizedField :=
  let candidates := ((build_index vocab).map (fun kv => kv.2)).filter
    (fun uri => strStartsWith uri (facet ++ ":"))
  normalize_label slot_label vocab (some (pySorted (dedupFirst candidates))) chooser

/-- normalize.py `normalize_operation`: facet-wise slot normalization, the
purposes as an independent list, context slots only when a label is present,
and the policy id from the first evidence span (`"unknown"` when there is
none). -/
def normalize_operation (op : OperationCandidate) (vocab : Vocabulary)
    (chooser : Option NormalizeChooser) : NormalizedOperation :=
  let action_label := op.action.map (fun ls => ls.label)
  let subject_label := op.subject.map (fun ls => ls.label)
  let view_label := op.view.map (fun ls => ls.label)
  let ctx := fun (label : Option String) (facet : String) =>
    match label with
    | none => none
    | some s => some (norm_slot (some s) vocab facet chooser)
  { op_id := op.op_id
    statement_id := op.statement_id
    policy_id := match op.evidence_spans with
      | [] => "unknown"
      | span :: _ => span.policy_id
    action := norm_slot action_label vocab "action" chooser
    subject := norm_slot subject_label vocab "subject" chooser
    view := norm_slot view_label vocab "view" chooser
    purposes := op.purposes.map (fun p => norm_slot (some p.label) vocab "purpose" chooser)
    recipient := ctx (op.recipient.map (fun ls => ls.label)) "recipient"
    source := ctx (op.source.map (fun ls => ls.label)) "context"
    legal_basis := ctx (op.legal_basis.map (fun ls => ls.label)) "basis"
    manner := ctx (op.manner.map (fun ls => ls.label)) "context"
    temporal := ctx (op.temporal.map (fun ls => ls.label)) "context"
    localisation := ctx (op.localisation.map (fun ls => ls.label)) "context"
    evidence_spans := op.evidence_spans
    original := op }

/-!
Validator, from src/consistency_advanced/validate/constraints.py.
-/

/-- constraints.py `_ALLOWED_PREFIXES`. -/
def allowedFacets : List String :=
  ["action", "subject", "data", "purpose", "view", "recipient", "basis", "context"]

/-- constraints.py `_prefix`: facet before the colon, `None` when the URI is
absent or has no colon. -/
def prefixOfUri (uri : Option String) : Option String :=
  match uri with
  | none => none
  | some s => if s.data.contains ':' then some (splitColonHead s) else none

/-- Build one `ValidationIssue` as the validator does, numbering from the
running issue count. -/
def mkIssue (n : Nat) (level message : String) (op : NormalizedOperation) :
    ValidationIssue :=
  { issue_id := "issue_" ++ toString n
    level := level
    message := message
    op_id := op.op_id
    policy_id := op.policy_id }

/-- The issues one operation contributes in `validate_operations`, with
`base` the number of issues already emitted: missing canonical action or
subject are errors, missing view a warning, a share or disclose action without
a recipient a warning, and every out-of-list URI prefix a warning. -/
def opIssues (base : Nat) (op : NormalizedOperation) : List ValidationIssue :=
  let l0 : List ValidationIssue := []
  let l1 := if op.action.normalized_uri.isNone then
      l0 ++ [mkIssue (base + l0.length + 1) "error" "Operation missing canonical action" op]
    else l0
  let l2 := if op.subject.normalized_uri.isNone then
      l1 ++ [mkIssue (base + l1.length + 1) "error" "Operation missing canonical subject" op]
    else l1
  let l3 := if op.view.normalized_uri.isNone then
      l2 ++ [mkIssue (base + l2.length + 1) "warning" "Operation missing modality/view" op]
    else l2
  let action_uri := op.action.normalized_uri.getD ""
  let l4 := if strEndsWith action_uri "share" || strEndsWith action_uri "disclose" then
      if op.recipient.isNone || (op.recipient.bind (fun r => r.normalized_uri)).isNone then
        l3 ++ [mkIssue (base + l3.length + 1) "warning"
          "Share/disclose operation missing recipient; treat as under-specified" op]
      else l3
    else l3
  let fields : List (Option String) :=
    [op.action.normalized_uri, op.subject.normalized_uri, op.view.normalized_uri]
    ++ op.purposes.map (fun p => p.normalized_uri)
    ++ [op.recipient.bind (fun f => f.normalized_uri),
        op.legal_basis.bind (fun f => f.normalized_uri),
        op.manner.bind (fun f => f.normalized_uri),
        op.temporal.bind (fun f => f.normalized_uri),
        op.localisation.bind (fun f => f.normalized_uri),
        op.source.bind (fun f => f.normalized_uri)]
  fields.foldl
    (fun acc uri =>
      let pf := prefixOfUri uri
      match uri with
      | none => acc
      | some _ =>
        if (match pf with
            | some p => allowedFacets.contains p
            | none => false) then acc
        else acc ++ [mkIssue (base + acc.length + 1) "warning"
          ("URI prefix `" ++ pyShowOpt pf ++ "` not in allowed set") op])
    l4

/-- constraints.py `validate_operations`. -/
def validate_operations (ops : List NormalizedOperation) : List ValidationIssue :=
  ops.foldl (fun acc op => acc ++ opIssues acc.length op) []

/-- constraints.py `has_blocking_errors`. -/
def has_blocking_errors (issues : List ValidationIssue) : Bool :=
  issues.any (fun issue => issue.level == "error")

/-!
Aligner and mismatch detector, from src/consistency_advanced/reason/compare.py.
-/

/-- compare.py `_ACTION_FAMILY`. -/
def actionFamilyTable : List (String × String) :=
  [("action:share", "share_receive"),
   ("action:disclose", "share_receive"),
   ("action:collect", "share_receive"),
   ("action:receive", "share_receive"),
   ("action:use", "process"),
   ("action:process", "process"),
   ("action:retain", "retain"),
   ("action:delete", "delete"),
   ("action:transfer", "transfer"),
   ("action:sell", "sell")]

/-- compare.py `_family`: the coarse family of an action URI, the URI itself
when unmapped, `None` for `None`. -/
def family (uri : Option String) : Option String :=
  match uri with
  | none => none
  | some u => some ((pyDictGet actionFamilyTable u).getD u)

/-- compare.py `_subject_score`: 1 for equal URIs, 0.8 when one subsumes the
other, 0 otherwise or without URIs or index. -/
def subject_score (a b : Option String) (index : Option HierarchyIndex) : QF :=
  match a, b with
  | none, _ => qf 0 1
  | _, none => qf 0 1
  | some a', some b' =>
    if a' == b' then qf 1 1
    else
      match index with
      | none => qf 0 1
      | some idx =>
        if is_subsumed a' b' idx || is_subsumed b' a' idx then qf 8 10 else qf 0 1

/-- compare.py `_purpose_overlap`: without an index the Jaccard ratio of the
two deduplicated lists, with an index the count of left purposes related to
some right purpose by subsumption in either direction, over
`min(len(a), len(b))`. -/
def purpose_overlap (a b : List String) (index : Option HierarchyIndex) : QF :=
  if a.isEmpty || b.isEmpty then qf 0 1
  else
    match index with
    | none =>
      let sa := dedupFirst a
      let sb := dedupFirst b
      let inter := (sa.filter (fun x => sb.contains x)).length
      let union := (sa ++ sb.filter (fun x => ¬ sa.contains x)).length
      qf inter (max 1 union)
    | some idx =>
      let hits := (a.filter (fun left =>
        b.any (fun right => is_subsumed left right idx || is_subsumed right left idx))).length
      qf hits (max 1 (min a.length b.length))

/-- The purpose URI list an operation contributes to scoring: normalized URIs
that are truthy (`if p.normalized_uri`). -/
def truthyPurposes (ps : List NormalizedField) : List String :=
  ps.filterMap (fun p =>
    match p.normalized_uri with
    | some s => if s ≠ "" then some s else none
    | none => none)

/-- The score and reasons `align_operations` computes for one candidate pair:
subject compatibility, action-family compatibility, purpose overlap,
recipient-to-source equality, and the optional strict context signals. -/
def scoreAndReasons (index : Option HierarchyIndex) (strict_context_compat : Bool)
    (fp tp : NormalizedOperation) : QF × List String :=
  let s0 : QF := qf 0 1
  let r0 : List String := []
  let subj := subject_score fp.subject.normalized_uri tp.subject.normalized_uri index
  let sr1 := if (qf 0 1).lt subj then
      (s0.add ((qf 1 1).mul subj), r0 ++ ["subject_compatible"])
    else (s0, r0)
  let fam_fp := family fp.action.normalized_uri
  let fam_tp := family tp.action.normalized_uri
  let sr2 := if pyTruthy fam_fp && pyTruthy fam_tp && fam_fp == fam_tp then
      (sr1.1.add (qf 1 1), sr1.2 ++ ["action_family_compatible"])
    else sr1
  let purp := purpose_overlap (truthyPurposes fp.purposes) (truthyPurposes tp.purposes) index
  let sr3 := if (qf 0 1).lt purp then
      (sr2.1.add ((qf 6 10).mul purp), sr2.2 ++ ["purpose_overlap"])
    else sr2
  let sr4 :=
    match fp.recipient, tp.source with
    | some recipient, some source =>
      if pyTruthy recipient.normalized_uri && pyTruthy source.normalized_uri
          && recipient.normalized_uri == source.normalized_uri then
        (sr3.1.add (qf 4 10), sr3.2 ++ ["recipient_source_alignment"])
      else sr3
    | _, _ => sr3
  if strict_context_compat then
    let sr5 :=
      match fp.localisation, tp.localisation with
      | some la, some lb =>
        if pyTruthy la.normalized_uri && pyTruthy lb.normalized_uri then
          if la.normalized_uri == lb.normalized_uri then (sr4.1.add (qf 2 10), sr4.2)
          else (sr4.1.sub (qf 3 10), sr4.2)
        else sr4
      | _, _ => sr4
    match fp.temporal, tp.temporal with
    | some ta, some tb =>
      if pyTruthy ta.normalized_uri && pyTruthy tb.normalized_uri then
        if ta.normalized_uri == tb.normalized_uri then (sr5.1.add (qf 2 10), sr5.2)
        else (sr5.1.sub (qf 3 10), sr5.2)
      else sr5
    | _, _ => sr5
  else sr4

/-- The inner scan of `align_operations`: over all third-party operations not
yet used, keep the single highest-scoring candidate, ties broken by the first
encountered (`score > best[0]`). -/
def bestCandidate (index : Option HierarchyIndex) (strict_context_compat : Bool)
    (fp : NormalizedOperation) (used : List String) (tp_ops : List NormalizedOperation) :
    QF × Option NormalizedOperation × List String :=
  tp_ops.foldl
    (fun best tp =>
      if used.contains tp.op_id then best
      else
        let sr := scoreAndReasons index strict_context_compat fp tp
        if best.1.lt sr.1 then (sr.1, some tp, sr.2) else best)
    (qf 0 1, none, [])

/-- The outer loop of `align_operations`: one pass over the first-party
operations in order, committing a pair when a best candidate exists and its
score reaches the threshold, and claiming that third-party operation. -/
def alignGo (index : Option HierarchyIndex) (strict_context_compat : Bool)
    (min_score : QF) (tp_ops : List NormalizedOperation) :
    List NormalizedOperation → List String → List AlignedPair
  | [], _ => []
  | fp :: rest, used =>
    let best := bestCandidate index strict_context_compat fp used tp_ops
    match best.2.1 with
    | some tp_best =>
      if min_score.le best.1 then
        { fp_op_id := fp.op_id, tp_op_id := tp_best.op_id, score := best.1, reasons := best.2.2 }
          :: alignGo index strict_context_compat min_score tp_ops rest (tp_best.op_id :: used)
      else alignGo index strict_context_compat min_score tp_ops rest used
    | none => alignGo index strict_context_compat min_score tp_ops rest used

/-- compare.py `align_operations` (min_score defaults to 1.25 at call sites). -/
def align_operations (fp_ops tp_ops : List NormalizedOperation)
    (index : Option HierarchyIndex) (strict_context_compat : Bool)
    (min_score : QF) : List AlignedPair :=
  alignGo index strict_context_compat min_score tp_ops fp_ops []

/-- compare.py `_quotes`: the stripped non-empty quotes of a span list. -/
def quotesOf (spans : List TextSpan) : List String :=
  spans.filterMap (fun span =>
    let q := pyStrip span.quote
    if q ≠ "" then some q else none)

/-- compare.py `_verifier_decision`, the default structural verifier. -/
def verifier_decision (finding : ComplianceFinding) : VerificationDecision :=
  if finding.fp_evidence.isEmpty || finding.tp_evidence.isEmpty then
    { decision := "UNDER_SPECIFIED", rationale := "missing_evidence_in_one_side" }
  else if (quotesOf finding.fp_evidence).isEmpty || (quotesOf finding.tp_evidence).isEmpty then
    { decision := "UNDER_SPECIFIED", rationale := "empty_quotes" }
  else if finding.finding_type == "UnderSpecifiedRequirement" then
    { decision := "UNDER_SPECIFIED", rationale := "incomplete_slots" }
  else
    { decision := "CONFIRMED", rationale := "structured_evidence_present" }

/-- The verifier as a function value. -/
def VerifierFun : Type := ComplianceFinding → VerificationDecision

/-- `(verifier or _verifier_decision)`: the supplied verifier when present,
otherwise the default structural one. -/
def verifierOr (v : Option VerifierFun) : VerifierFun :=
  match v with
  | some g => g
  | none => verifier_decision

/-- The `UnderSpecifiedRequirement` finding literal built in
`find_mismatches`, with `n` the number of findings already emitted. -/
def underSpecFinding (n : Nat) (pair : AlignedPair) (fp tp : NormalizedOperation) :
    ComplianceFinding :=
  { finding_id := "finding_" ++ toString (n + 1)
    finding_type := "UnderSpecifiedRequirement"
    status := "PotentiallyNonCompliant"
    summary := "Aligned operations are missing required canonical slots."
    fp_op_id := some fp.op_id
    tp_op_id := some tp.op_id
    fp_evidence := fp.evidence_spans
    tp_evidence := tp.evidence_spans
    metadata := { alignment_score := some pair.score, reasons := some pair.reasons } }

/-- The `InconsistentRequirement` (contradiction) finding literal. -/
def contradictionFinding (n : Nat) (pair : AlignedPair) (fp tp : NormalizedOperation) :
    ComplianceFinding :=
  { finding_id := "finding_" ++ toString (n + 1)
    finding_type := "InconsistentRequirement"
    status := "PotentiallyNonCompliant"
    summary := "Contradiction: first-party denies processing while third-party indicates processing."
    fp_op_id := some fp.op_id
    tp_op_id := some tp.op_id
    fp_evidence := fp.evidence_spans
    tp_evidence := tp.evidence_spans
    metadata := { subtype := some "Contradiction", alignment_score := some pair.score } }

/-- The `PurposeMismatch` finding literal, listing the out-of-scope
third-party purposes. -/
def purposeFinding (n : Nat) (pair : AlignedPair) (fp tp : NormalizedOperation)
    (extra_tp fp_purposes tp_purposes : List String) : ComplianceFinding :=
  { finding_id := "finding_" ++ toString (n + 1)
    finding_type := "PurposeMismatch"
    status := "PotentiallyNonCompliant"
    summary := "Third-party purposes exceed first-party disclosed/allowed purposes."
    fp_op_id := some fp.op_id
    tp_op_id := some tp.op_id
    fp_evidence := fp.evidence_spans
    tp_evidence := tp.evidence_spans
    metadata := { extra_tp_purposes := some extra_tp
                  fp_purposes := some fp_purposes
                  tp_purposes := some tp_purposes
                  alignment_score := some pair.score } }

/-- The `ConditionMismatch` finding literal. -/
def conditionFinding (n : Nat) (pair : AlignedPair) (fp tp : NormalizedOperation)
    (fp_basis tp_basis : Option String) : ComplianceFinding :=
  { finding_id := "finding_" ++ toString (n + 1)
    finding_type := "ConditionMismatch"
    status := "PotentiallyNonCompliant"
    summary := "Legal basis/condition differs across aligned operations."
    fp_op_id := some fp.op_id
    tp_op_id := some tp.op_id
    fp_evidence := fp.evidence_spans
    tp_evidence := tp.evidence_spans
    metadata := { fp_legal_basis := fp_basis
                  tp_legal_basis := tp_basis
                  alignment_score := some pair.score } }

/-- The `SatisfiedRequirement` finding literal. -/
def satisfiedFinding (n : Nat) (pair : AlignedPair) (fp tp : NormalizedOperation) :
    ComplianceFinding :=
  { finding_id := "finding_" ++ toString (n + 1)
    finding_type := "SatisfiedRequirement"
    status := "Consistent"
    summary := "Aligned operations are consistent on checked dimensions."
    fp_op_id := some fp.op_id
    tp_op_id := some tp.op_id
    fp_evidence := fp.evidence_spans
    tp_evidence := tp.evidence_spans
    metadata := { alignment_score := some pair.score, reasons := some pair.reasons } }

/-- One iteration of the `find_mismatches` loop: resolve the pair's
operations, skip without dual evidence, then the ordered cascade
(under-specified, contradiction, purpose mismatch, condition mismatch,
satisfied), each candidate gated by the verifier as in the source:
the under-specified finding is kept unless `NOT_CONFIRMED`, every other
finding only on `CONFIRMED`.  `n` is the number of findings already kept. -/
def processPair (v : Option VerifierFun) (index : Option HierarchyIndex)
    (fp_by_id tp_by_id : List (String × NormalizedOperation)) (n : Nat)
    (pair : AlignedPair) : Option ComplianceFinding :=
  match pyDictGet fp_by_id pair.fp_op_id with
  | none => none
  | some fp =>
    match pyDictGet tp_by_id pair.tp_op_id with
    | none => none
    | some tp =>
      if fp.evidence_spans.isEmpty || tp.evidence_spans.isEmpty then none
      else
        let fp_purposes := truthyPurposes fp.purposes
        let tp_purposes := truthyPurposes tp.purposes
        if fp.action.normalized_uri.isNone || fp.subject.normalized_uri.isNone
            || tp.action.normalized_uri.isNone || tp.subject.normalized_uri.isNone then
          let finding := underSpecFinding n pair fp tp
          if (verifierOr v finding).decision != "NOT_CONFIRMED" then some finding else none
        else
          let fp_view := fp.view.normalized_uri.getD ""
          let tp_view := tp.view.normalized_uri.getD ""
          if strEndsWith fp_view "do_not" && !(strEndsWith tp_view "do_not") then
            let finding := contradictionFinding n pair fp tp
            if (verifierOr v finding).decision == "CONFIRMED" then some finding else none
          else
            let extra_tp := tp_purposes.filter (fun p =>
              match index with
              | some idx => !(purpose_in_closure p fp_purposes idx)
              | none => !(fp_purposes.contains p))
            if extra_tp.isEmpty then
              let fp_basis := fp.legal_basis.bind (fun f => f.normalized_uri)
              let tp_basis := tp.legal_basis.bind (fun f => f.normalized_uri)
              if pyTruthy fp_basis && pyTruthy tp_basis && fp_basis != tp_basis then
                let finding := conditionFinding n pair fp tp fp_basis tp_basis
                if (verifierOr v finding).decision == "CONFIRMED" then some finding else none
              else
                let finding := satisfiedFinding n pair fp tp
                if (verifierOr v finding).decision == "CONFIRMED" then some finding else none
            else
              let finding := purposeFinding n pair fp tp extra_tp fp_purposes tp_purposes
              if (verifierOr v finding).decision == "CONFIRMED" then some finding else none

/-- The candidate finding the cascade of `find_mismatches` constructs for a
pair before any verifier gating (the finding literal each branch builds). -/
def cascadeCandidate (index : Option HierarchyIndex)
    (fp_by_id tp_by_id : List (String × NormalizedOperation)) (n : Nat)
    (pair : AlignedPair) : Option ComplianceFinding :=
  match pyDictGet fp_by_id pair.fp_op_id with
  | none => none
  | some fp =>
    match pyDictGet tp_by_id pair.tp_op_id with
    | none => none
    | some tp =>
      if fp.evidence_spans.isEmpty || tp.evidence_spans.isEmpty then none
      else
        let fp_purposes := truthyPurposes fp.purposes
        let tp_purposes := truthyPurposes tp.purposes
        if fp.action.normalized_uri.isNone || fp.subject.normalized_uri.isNone
            || tp.action.normalized_uri.isNone || tp.subject.normalized_uri.isNone then
          some (underSpecFinding n pair fp tp)
        else
          let fp_view := fp.view.normalized_uri.getD ""
          let tp_view := tp.view.normalized_uri.getD ""
          if strEndsWith fp_view "do_not" && !(strEndsWith tp_view "do_not") then
            some (contradictionFinding n pair fp tp)
          else
            let extra_tp := tp_purposes.filter (fun p =>
              match index with
              | some idx => !(purpose_in_closure p fp_purposes idx)
              | none => !(fp_purposes.contains p))
            if extra_tp.isEmpty then
              let fp_basis := fp.legal_basis.bind (fun f => f.normalized_uri)
              let tp_basis := tp.legal_basis.bind (fun f => f.normalized_uri)
              if pyTruthy fp_basis && pyTruthy tp_basis && fp_basis != tp_basis then
                some (conditionFinding n pair fp tp fp_basis tp_basis)
              else
                some (satisfiedFinding n pair fp tp)
            else
              some (purposeFinding n pair fp tp extra_tp fp_purposes tp_purposes)

/-- The keep condition the source applies to a candidate finding: the
under-specified finding survives any decision other than `NOT_CONFIRMED`,
every other finding type requires `CONFIRMED`. -/
def verifierKeeps (v : Option VerifierFun) (c : ComplianceFinding) : Bool :=
  if c.finding_type == "UnderSpecifiedRequirement" then
    (verifierOr v c).decision != "NOT_CONFIRMED"
  else
    (verifierOr v c).decision == "CONFIRMED"

/-- The loop of `find_mismatches` over the aligned pairs, accumulating kept
findings (their count feeds the next finding id). -/
def findMismatchesGo (v : Option VerifierFun) (index : Option HierarchyIndex)
    (fp_by_id tp_by_id : List (String × NormalizedOperation)) :
    List AlignedPair → List ComplianceFinding → List ComplianceFinding
  | [], acc => acc
  | pair :: rest, acc =>
    match processPair v index fp_by_id tp_by_id acc.length pair with
    | some f => findMismatchesGo v index fp_by_id tp_by_id rest (acc ++ [f])
    | none => findMismatchesGo v index fp_by_id tp_by_id rest acc

/-- The operation-by-id dict built at the top of `find_mismatches`. -/
def opsById (ops : List NormalizedOperation) : List (String × NormalizedOperation) :=
  pyDictOf (ops.map (fun op => (op.op_id, op)))

/-- compare.py `find_mismatches`. -/
def find_mismatches (aligned_ops : List AlignedPair)
    (fp_ops tp_ops : List NormalizedOperation) (index : Option HierarchyIndex)
    (verifier : Option VerifierFun) : List ComplianceFinding :=
  findMismatchesGo verifier index (opsById fp_ops) (opsById tp_ops) aligned_ops []

/-!
Pipeline reasoning core, from src/consistency_advanced/pipeline/run.py
(lines 119-206).  Ingestion, extraction, graph building and report rendering
are collaborators outside the verified core; the normalized operations arrive
as inputs and the observable reasoning outputs are returned.
-/

/-- The reasoning-relevant outputs of `run_pipeline`: the validation gate,
the alignment it always computes, and the findings list it empties under
blocking errors. -/
structure RunResult where
  blocking_errors : Bool
  aligned : List AlignedPair
  findings : List ComplianceFinding
deriving DecidableEq, Repr

/-- run.py `run_pipeline`, reasoning stages: validate all operations, gate on
blocking errors, align unconditionally, and compute findings only when the
gate is clear (`findings = [] if blocking else find_mismatches(...)`). -/
def run_pipeline (fp_norm tp_norm : List NormalizedOperation)
    (index : Option HierarchyIndex) (strict_context_compat : Bool)
    (finding_verifier : Option VerifierFun) : RunResult :=
  let issues := validate_operations (fp_norm ++ tp_norm)
  let blocking := has_blocking_errors issues
  let aligned := align_operations fp_norm tp_norm index strict_context_compat (qf 5 4)
  let findings := if blocking then []
    else find_mismatches aligned fp_norm tp_norm index finding_verifier
  { blocking_errors := blocking, aligned := aligned, findings := findings }

/-!
Concrete fixtures used by the scenario theorems and witnesses.
-/

/-- A normalized field carrying a resolved URI (exact-label resolution). -/
def nfld (uri : String) : NormalizedField :=
  { raw_label := some uri, normalized_uri := some uri, confidence := qf 1 1, reason := "exact_label" }

/-- A normalized field for an unresolved slot. -/
def nmiss : NormalizedField :=
  { raw_label := none, normalized_uri := none, confidence := qf 0 1, reason := "missing" }

/-- An inert raw candidate to populate the `original` back pointer of fixture
operations. -/
def emptyCand : OperationCandidate :=
  { op_id := "", statement_id := "", action := none, subject := none,
    view := none, purposes := [] }

/-- An evidence span for the fixture first-party policy. -/
def spanFP : TextSpan :=
  { policy_id := "fp_policy", section_id := "s1", section_path := "1"
    start_char := 0, end_char := 40
    quote := "We may share device identifiers for analytics." }

/-- An evidence span for the fixture third-party policy. -/
def spanTP : TextSpan :=
  { policy_id := "tp_policy", section_id := "s7", section_path := "7"
    start_char := 0, end_char := 44
    quote := "We collect device identifiers for advertising and analytics." }

/-- Fixture operation builder over resolved or missing slots. -/
def mkOp (id pid : String) (action subject view : Option String)
    (purposes : List String) (ev : List TextSpan) : NormalizedOperation :=
  { op_id := id
    statement_id := id
    policy_id := pid
    action := match action with | some u => nfld u | none => nmiss
    subject := match subject with | some u => nfld u | none => nmiss
    view := match view with | some u => nfld u | none => nmiss
    purposes := purposes.map nfld
    recipient := none
    source := none
    legal_basis := none
    manner := none
    temporal := none
    localisation := none
    evidence_spans := ev
    original := emptyCand }

/-- The first-party operation of the spec's purpose-mismatch scenario. -/
def fpShare : NormalizedOperation :=
  mkOp "fp1" "fp_policy" (some "action:share") (some "subject:device_id")
    (some "view:may") ["purpose:analytics"] [spanFP]

/-- The third-party operation of the spec's purpose-mismatch scenario (no
declared view). -/
def tpCollect : NormalizedOperation :=
  mkOp "tp1" "tp_policy" (some "action:collect") (some "subject:device_id")
    none ["purpose:advertising", "purpose:analytics"] [spanTP]

/-- A hierarchy index with no parent edges and no rule edges, under which
`purpose:advertising` is not subsumed by `purpose:analytics`. -/
def emptyIndex : HierarchyIndex := { parent_map := [], derived_edges := [] }

/-- An operation that failed to normalize its action and subject: it draws
two `error` issues from the validator. -/
def fpBroken : NormalizedOperation :=
  mkOp "fp0" "fp_policy" none none none [] [spanFP]

/-- A first-party operation with an explicit prohibition view. -/
def fpDeny : NormalizedOperation :=
  mkOp "fp2" "fp_policy" (some "action:share") (some "subject:email")
    (some "view:do_not") [] [spanFP]

/-- A third-party operation performing what `fpDeny` prohibits. -/
def tpDo : NormalizedOperation :=
  mkOp "tp2" "tp_policy" (some "action:collect") (some "subject:email")
    (some "view:may") [] [spanTP]

/-- An aligned pair handed directly to `find_mismatches` for the
contradiction fixtures. -/
def pairDeny : AlignedPair :=
  { fp_op_id := "fp2", tp_op_id := "tp2", score := qf 2 1, reasons := [] }

/-- A pluggable verifier that answers `UNDER_SPECIFIED` on every finding. -/
def underSpecVerifier : VerifierFun :=
  fun _ => { decision := "UNDER_SPECIFIED", rationale := "assessor undecided" }

/-- An operation without evidence spans, violating the upstream invariant. -/
def fpNoEvidence : NormalizedOperation :=
  mkOp "fp3" "fp_policy" (some "action:use") (some "subject:email") (some "view:may") [] []

/-- A pair pointing at the evidence-free operation. -/
def pairNoEvidence : AlignedPair :=
  { fp_op_id := "fp3", tp_op_id := "tp2", score := qf 2 1, reasons := [] }

/-- The pair the aligner commits for the purpose-mismatch scenario. -/
def pairShare : AlignedPair :=
  { fp_op_id := "fp1", tp_op_id := "tp1", score := qf 26 10
    reasons := ["subject_compatible", "action_family_compatible", "purpose_overlap"] }

/-- The finding the detector emits for the purpose-mismatch scenario. -/
def examplePM : ComplianceFinding :=
  purposeFinding 0 pairShare fpShare tpCollect ["purpose:advertising"]
    ["purpose:analytics"] ["purpose:advertising", "purpose:analytics"]

/-- A vocabulary whose only exact label `analytics` belongs to the purpose
facet, while the action facet holds `share`. -/
def crossVocab : Vocabulary :=
  { actions := [{ uri := "action:share", label := "share" }]
    subjects := []
    data_categories := []
    purposes := [{ uri := "purpose:analytics", label := "analytics" }]
    views := []
    recipients := []
    legal_bases := []
    context := [] }

/-- A raw candidate whose action slot carries the purpose-flavoured label
`analytics`. -/
def crossCand : OperationCandidate :=
  { op_id := "c1", statement_id := "c1"
    action := some { label := "analytics", evidence := none }
    subject := none, view := none, purposes := []
    evidence_spans := [spanFP] }

/-- A raw candidate whose slot labels miss every exact and substring key, so
resolution falls through to the chooser. -/
def zCand : OperationCandidate :=
  { op_id := "z1", statement_id := "z1"
    action := some { label := "zzz", evidence := none }
    subject := none, view := none, purposes := []
    evidence_spans := [spanFP] }

/-- A chooser that picks the first enumerated candidate. -/
def pickHead : NormalizeChooser := fun _ cands => cands.head?

/-- A context-compatibility rule object that omits the `compatible` key. -/
def ruleNoKey : JVal := .obj [("a", .str "ctx:x"), ("b", .str "ctx:y")]

/-- Rules with one matching override entry lacking the `compatible` key. -/
def rulesWithEntry : CompatibilityRules :=
  { purpose_subsumption := [], subject_subsumption := []
    context_compatibility := [("context", [ruleNoKey])] }

/-- Rules with an empty override table. -/
def rulesEmpty : CompatibilityRules :=
  { purpose_subsumption := [], subject_subsumption := [], context_compatibility := [] }

/-- No two adjacent whitespace characters occur in the list. -/
def noTwoWS : List Char → Bool
  | [] => true
  | [_] => true
  | a :: b :: t => !(isPyWS a && isPyWS b) && noTwoWS (b :: t)

/-- The keys of a parent map not yet visited by the subsumption walk. -/
def unvisitedKeys (pm : List (String × String)) (visited : List String) :
    List String :=
  ((pm.map Prod.fst).dedup).filter (fun k => k ∉ visited)

/-!
Claim theorems.
-/

/-- Claim C1, counterexample: with a blocking validation error present
(the broken operation misses action and subject), `run_pipeline` still
computes a non-empty alignment — alignment is not skipped, only mismatch
detection is, so the claim's "skips alignment and mismatch detection
entirely" fails on the alignment half. -/
theorem C1_counterexample :
    has_blocking_errors (validate_operations ([fpBroken, fpShare] ++ [tpCollect])) = true
    ∧ (run_pipeline [fpBroken, fpShare] [tpCollect] (some emptyIndex) false none).aligned ≠ []
    ∧ (run_pipeline [fpBroken, fpShare] [tpCollect] (some emptyIndex) false none).findings = [] := by
  decide

/-- Claim C1, amended: if `validate_operations` reports any error-level
issue, `run_pipeline` returns an empty finding list (the conditional never
reaches `find_mismatches`) and reports `blocking_errors = true`; alignment is
still computed. -/
theorem C1_blocking_gate (fp_norm tp_norm : List NormalizedOperation)
    (index : Option HierarchyIndex) (strict : Bool) (v : Option VerifierFun)
    (h : has_blocking_errors (validate_operations (fp_norm ++ tp_norm)) = true) :
    (run_pipeline fp_norm tp_norm index strict v).findings = []
    ∧ (run_pipeline fp_norm tp_norm index strict v).blocking_errors = true := by
  unfold run_pipeline
  simp [h]

/-- Claim C1, witness: the blocking gate evaluated on the broken fixture. -/
theorem C1_witness :
    (run_pipeline [fpBroken, fpShare] [tpCollect] (some emptyIndex) false none).findings = []
    ∧ (run_pipeline [fpBroken, fpShare] [tpCollect] (some emptyIndex) false none).blocking_errors = true :=
  C1_blocking_gate [fpBroken, fpShare] [tpCollect] (some emptyIndex) false none (by decide)

/-- Claim C5: on the spec's scenario (shared subject, `share`/`collect` in
one action family, overlapping purposes, `purpose:advertising` not subsumed
by `purpose:analytics`), the aligner commits exactly the expected pair with
score 2.6 ≥ 1.6, and the detector emits one `PurposeMismatch` finding whose
extra-purposes list is exactly `[purpose:advertising]`. -/
theorem C5_scenario :
    is_subsumed "purpose:analytics" "purpose:advertising" emptyIndex = false
    ∧ align_operations [fpShare] [tpCollect] (some emptyIndex) false (qf 5 4) = [pairShare]
    ∧ (qf 8 5).le pairShare.score = true
    ∧ (find_mismatches (align_operations [fpShare] [tpCollect] (some emptyIndex) false (qf 5 4))
        [fpShare] [tpCollect] (some emptyIndex) none).map
        (fun f => (f.finding_type, f.metadata.extra_tp_purposes))
      = [("PurposeMismatch", some ["purpose:advertising"])] := by
  decide

/-- Claim C8: `load_vocab` on a non-directory path whose lower-cased suffix
is not `.json` always fails with the loader's configuration error and never
returns a vocabulary. -/
theorem C8_loader_rejects (suffix : String) (doc : JVal)
    (h : pyLower suffix ≠ ".json") :
    load_vocab (.file suffix doc)
      = Except.error "Use vocab.json or vocab/ directory to avoid YAML dependencies." := by
  unfold load_vocab
  simp [h]

/-- Claim C8, witness: a `.yaml` path is rejected. -/
theorem C8_witness :
    load_vocab (.file ".yaml" JVal.null)
      = Except.error "Use vocab.json or vocab/ directory to avoid YAML dependencies." :=
  C8_loader_rejects ".yaml" JVal.null (by decide)

/-- Claim C10: with distinct context URIs, a matching override entry that
omits the `compatible` key makes `is_context_compatible` return `false`
(the dict-get default is `False`), while the absence of any matching entry
makes it return `true` — omitting the key inside an entry behaves opposite
to omitting the entry. -/
theorem C10_context_override (rules : CompatibilityRules) (a b : String)
    (hne : a ≠ b) :
    (∀ rule, findContextRule rules.context_compatibility a b = some rule →
      jGet rule "compatible" = none →
      is_context_compatible (some a) (some b) rules = false)
    ∧ (findContextRule rules.context_compatibility a b = none →
      is_context_compatible (some a) (some b) rules = true) := by
  have hb : (a == b) = false := by
    simp [hne]
  constructor
  · intro rule hfind hkey
    simp [is_context_compatible, hb, hfind, jGetD, hkey, jTruthy]
  · intro hfind
    simp [is_context_compatible, hb, hfind]

/-- Claim C10, witness: the override table with one key-less matching entry
yields incompatible, the empty table yields compatible. -/
theorem C10_witness :
    is_context_compatible (some "ctx:x") (some "ctx:y") rulesWithEntry = false
    ∧ is_context_compatible (some "ctx:x") (some "ctx:y") rulesEmpty = true :=
  ⟨(C10_context_override rulesWithEntry "ctx:x" "ctx:y" (by decide)).1 ruleNoKey rfl rfl,
   (C10_context_override rulesEmpty "ctx:x" "ctx:y" (by decide)).2 rfl⟩

/-- Claim C9, counterexample: `_canon` keeps underscores (its character class
is `[a-z0-9_\-\s]`), so `canon "a_b" = "a_b"` and the canonical form is not
made of lowercase letters, digits and spaces alone. -/
theorem C9_counterexample :
    canon "a_b" = "a_b"
    ∧ ((canon "a_b").data.all
        (fun c => ('a' ≤ c && c ≤ 'z') || ('0' ≤ c && c ≤ '9') || c == ' ')) = false := by
  decide

/-- Claim C4, counterexample: `normalize_operation` resolves the action label
`analytics` through the cross-facet exact-label index, returning the
purpose-facet URI `purpose:analytics` for the action slot — the exact and
substring passes are not facet-restricted. -/
theorem C4_counterexample :
    (normalize_operation crossCand crossVocab none).action.normalized_uri
      = some "purpose:analytics"
    ∧ strStartsWith "purpose:analytics" "action:" = false := by
  decide

/-- Claim C3, counterexample: a verifier answering `UNDER_SPECIFIED` (which
is not `NOT_CONFIRMED`) on a contradiction candidate still loses the finding:
the cascade builds an `InconsistentRequirement` candidate for the fixture
pair, yet `find_mismatches` returns the empty list, because the code keeps
such findings only on `CONFIRMED`. -/
theorem C3_counterexample :
    (cascadeCandidate none (opsById [fpDeny]) (opsById [tpDo]) 0 pairDeny).map
      (fun f => f.finding_type) = some "InconsistentRequirement"
    ∧ (underSpecVerifier (contradictionFinding 0 pairDeny fpDeny tpDo)).decision
        = "UNDER_SPECIFIED"
    ∧ ((underSpecVerifier (contradictionFinding 0 pairDeny fpDeny tpDo)).decision
        = "NOT_CONFIRMED") = False
    ∧ find_mismatches [pairDeny] [fpDeny] [tpDo] none (some underSpecVerifier) = [] := by
  decide

/-- The keep condition at a non-under-specified finding is the `CONFIRMED`
test. -/
theorem verifierKeeps_other (v : Option VerifierFun) (c : ComplianceFinding)
    (h : (c.finding_type == "UnderSpecifiedRequirement") = false) :
    verifierKeeps v c = ((verifierOr v c).decision == "CONFIRMED") := by
  simp [verifierKeeps, h]

/-- The keep condition at an under-specified finding is the
not-`NOT_CONFIRMED` test. -/
theorem verifierKeeps_us (v : Option VerifierFun) (c : ComplianceFinding)
    (h : (c.finding_type == "UnderSpecifiedRequirement") = true) :
    verifierKeeps v c = ((verifierOr v c).decision != "NOT_CONFIRMED") := by
  simp [verifierKeeps, h]

/-- The loop body of `find_mismatches` equals the ungated cascade candidate
filtered by the source's keep condition. -/
theorem processPair_eq_gated_cascade (v : Option VerifierFun)
    (index : Option HierarchyIndex)
    (fpM tpM : List (String × NormalizedOperation)) (n : Nat) (pair : AlignedPair) :
    processPair v index fpM tpM n pair
      = (cascadeCandidate index fpM tpM n pair).bind
          (fun c => if verifierKeeps v c then some c else none) := by
  unfold processPair cascadeCandidate
  cases pyDictGet fpM pair.fp_op_id with
  | none => rfl
  | some fp =>
    cases pyDictGet tpM pair.tp_op_id with
    | none => rfl
    | some tp =>
      by_cases he : (fp.evidence_spans.isEmpty || tp.evidence_spans.isEmpty) = true
      · simp only [he, if_true, Option.none_bind]
      · simp only [Bool.not_eq_true] at he
        simp only [he, Bool.false_eq_true, if_false]
        by_cases hm : (fp.action.normalized_uri.isNone || fp.subject.normalized_uri.isNone
            || tp.action.normalized_uri.isNone || tp.subject.normalized_uri.isNone) = true
        · simp only [hm, if_true, Option.some_bind]
          rw [verifierKeeps_us v _ (by rfl)]
        · simp only [Bool.not_eq_true] at hm
          simp only [hm, Bool.false_eq_true, if_false]
          by_cases hv : (strEndsWith (fp.view.normalized_uri.getD "") "do_not"
              && !(strEndsWith (tp.view.normalized_uri.getD "") "do_not")) = true
          · simp only [hv, if_true, Option.some_bind]
            rw [verifierKeeps_other v _ (by rfl)]
          · simp only [Bool.not_eq_true] at hv
            simp only [hv, Bool.false_eq_true, if_false]
            by_cases hx : (((truthyPurposes tp.purposes).filter (fun p =>
                match index with
                | some idx => !(purpose_in_closure p (truthyPurposes fp.purposes) idx)
                | none => !((truthyPurposes fp.purposes).contains p))).isEmpty) = true
            · simp only [hx, if_true]
              by_cases hbas : (pyTruthy (fp.legal_basis.bind (fun f => f.normalized_uri))
                  && pyTruthy (tp.legal_basis.bind (fun f => f.normalized_uri))
                  && (fp.legal_basis.bind (fun f => f.normalized_uri)
                      != tp.legal_basis.bind (fun f => f.normalized_uri))) = true
              · simp only [hbas, if_true, Option.some_bind]
                rw [verifierKeeps_other v _ (by rfl)]
              · simp only [Bool.not_eq_true] at hbas
                simp only [hbas, Bool.false_eq_true, if_false, Option.some_bind]
                rw [verifierKeeps_other v _ (by rfl)]
            · simp only [Bool.not_eq_true] at hx
              simp only [hx, Bool.false_eq_true, if_false, Option.some_bind]
              rw [verifierKeeps_other v _ (by rfl)]

/-- Claim C3, amended: for every verifier and pair, `find_mismatches`' loop
body equals the ungated cascade candidate filtered by the source's keep
condition — `UnderSpecifiedRequirement` candidates are dropped exactly on
`NOT_CONFIRMED`, while `InconsistentRequirement`, `PurposeMismatch`,
`ConditionMismatch` and `SatisfiedRequirement` candidates are kept exactly on
`CONFIRMED` (so they are dropped on `UNDER_SPECIFIED` as well, not only on
`NOT_CONFIRMED`). -/
theorem C3_verifier_gate (v : Option VerifierFun) (index : Option HierarchyIndex)
    (fpM tpM : List (String × NormalizedOperation)) (n : Nat) (pair : AlignedPair) :
    processPair v index fpM tpM n pair
      = (cascadeCandidate index fpM tpM n pair).bind
          (fun c => if verifierKeeps v c then some c else none) :=
  processPair_eq_gated_cascade v index fpM tpM n pair

/-- A gated bind returning a value means the underlying option held exactly
that value. -/
theorem gatedBind_some {α : Type} {p : α → Bool} {o : Option α} {f : α}
    (h : (o.bind fun c => if p c then some c else none) = some f) : o = some f := by
  cases o with
  | none => simp at h
  | some c =>
    simp only [Option.some_bind] at h
    split at h
    · exact h
    · simp at h

/-- Every candidate the cascade constructs carries the pair's evidence spans,
which the evidence precondition has checked to be non-empty. -/
theorem cascadeCandidate_evidence (index : Option HierarchyIndex)
    (fpM tpM : List (String × NormalizedOperation)) (n : Nat) (pair : AlignedPair)
    (f : ComplianceFinding)
    (h : cascadeCandidate index fpM tpM n pair = some f) :
    f.fp_evidence ≠ [] ∧ f.tp_evidence ≠ [] := by
  unfold cascadeCandidate at h
  cases hfp : pyDictGet fpM pair.fp_op_id with
  | none => simp [hfp] at h
  | some fp =>
    cases htp : pyDictGet tpM pair.tp_op_id with
    | none => simp [hfp, htp] at h
    | some tp =>
      simp only [hfp, htp] at h
      split at h
      · simp at h
      · rename_i hemp
        have h1 : fp.evidence_spans ≠ [] := fun hnil => hemp (by simp [hnil])
        have h2 : tp.evidence_spans ≠ [] := fun hnil => hemp (by simp [hnil])
        split at h
        · simp only [Option.some.injEq] at h
          subst h
          exact ⟨h1, h2⟩
        · split at h
          · simp only [Option.some.injEq] at h
            subst h
            exact ⟨h1, h2⟩
          · split at h
            · split at h
              · simp only [Option.some.injEq] at h
                subst h
                exact ⟨h1, h2⟩
              · simp only [Option.some.injEq] at h
                subst h
                exact ⟨h1, h2⟩
            · simp only [Option.some.injEq] at h
              subst h
              exact ⟨h1, h2⟩

/-- Every finding the detector loop returns was in the accumulator or is an
output of the loop body on some pair. -/
theorem findMismatchesGo_sound (v : Option VerifierFun) (index : Option HierarchyIndex)
    (fpM tpM : List (String × NormalizedOperation)) :
    ∀ (pairs : List AlignedPair) (acc : List ComplianceFinding) (f : ComplianceFinding),
    f ∈ findMismatchesGo v index fpM tpM pairs acc →
    f ∈ acc ∨ ∃ n pair, processPair v index fpM tpM n pair = some f := by
  intro pairs
  induction pairs with
  | nil => intro acc f hf; exact Or.inl hf
  | cons pair rest ih =>
    intro acc f hf
    unfold findMismatchesGo at hf
    cases hpp : processPair v index fpM tpM acc.length pair with
    | some g =>
      simp only [hpp] at hf
      rcases ih (acc ++ [g]) f hf with hin | hex
      · rcases List.mem_append.mp hin with h1 | h2
        · exact Or.inl h1
        · have hg : f = g := by simpa using h2
          exact Or.inr ⟨acc.length, pair, hg ▸ hpp⟩
      · exact Or.inr hex
    | none =>
      simp only [hpp] at hf
      exact ih acc f hf

/-- Claim C2: every finding `find_mismatches` emits carries non-empty
evidence from both sides, and a pair whose resolved operations lack evidence
spans on either side yields no finding at all. -/
theorem C2_evidence_invariant (aligned : List AlignedPair)
    (fp_ops tp_ops : List NormalizedOperation) (index : Option HierarchyIndex)
    (v : Option VerifierFun) :
    (∀ f ∈ find_mismatches aligned fp_ops tp_ops index v,
      f.fp_evidence ≠ [] ∧ f.tp_evidence ≠ [])
    ∧ (∀ (n : Nat) (pair : AlignedPair) (fp tp : NormalizedOperation),
        pyDictGet (opsById fp_ops) pair.fp_op_id = some fp →
        pyDictGet (opsById tp_ops) pair.tp_op_id = some tp →
        (fp.evidence_spans.isEmpty || tp.evidence_spans.isEmpty) = true →
        processPair v index (opsById fp_ops) (opsById tp_ops) n pair = none) := by
  constructor
  · intro f hf
    unfold find_mismatches at hf
    rcases findMismatchesGo_sound v index _ _ aligned [] f hf with hin | ⟨n, pair, hpp⟩
    · simp at hin
    · rw [processPair_eq_gated_cascade] at hpp
      exact cascadeCandidate_evidence index _ _ n pair f (gatedBind_some hpp)
  · intro n pair fp tp hfp htp hemp
    rw [processPair_eq_gated_cascade]
    unfold cascadeCandidate
    simp [hfp, htp, hemp]

/-- Claim C2, witness: the scenario finding carries dual evidence, and the
evidence-free fixture pair produces no finding. -/
theorem C2_witness :
    (examplePM.fp_evidence ≠ [] ∧ examplePM.tp_evidence ≠ [])
    ∧ processPair none none (opsById [fpNoEvidence]) (opsById [tpDo]) 0 pairNoEvidence = none :=
  ⟨(C2_evidence_invariant [pairShare] [fpShare] [tpCollect] (some emptyIndex) none).1
      examplePM (by decide),
   (C2_evidence_invariant [] [fpNoEvidence] [tpDo] none none).2 0 pairNoEvidence
      fpNoEvidence tpDo (by decide) (by decide) (by decide)⟩

/-- The inner scan of the aligner never selects an already-claimed
third-party operation: its fold preserves the invariant that the running best
candidate is unused. -/
theorem bestCandidate_not_used (index : Option HierarchyIndex) (strict : Bool)
    (fp : NormalizedOperation) (used : List String) :
    ∀ (tps : List NormalizedOperation) (b0 : QF × Option NormalizedOperation × List String),
    (∀ t, b0.2.1 = some t → used.contains t.op_id = false) →
    ∀ t,
    (tps.foldl
      (fun best tp =>
        if used.contains tp.op_id then best
        else
          let sr := scoreAndReasons index strict fp tp
          if best.1.lt sr.1 then (sr.1, some tp, sr.2) else best) b0).2.1 = some t →
    used.contains t.op_id = false := by
  intro tps
  induction tps with
  | nil => intro b0 hb t ht; exact hb t ht
  | cons tp rest ih =>
    intro b0 hb t ht
    simp only [List.foldl_cons] at ht
    apply ih _ _ t ht
    intro t' ht'
    by_cases hu : used.contains tp.op_id = true
    · simp only [hu, if_true] at ht'
      exact hb t' ht'
    · simp only [Bool.not_eq_true] at hu
      simp only [hu, Bool.false_eq_true, if_false] at ht'
      split at ht'
      · simp only [Option.some.injEq] at ht'
        subst ht'
        exact hu
      · exact hb t' ht'

/-- The best candidate, when one exists, is not among the used ids. -/
theorem bestCandidate_sound (index : Option HierarchyIndex) (strict : Bool)
    (fp : NormalizedOperation) (used : List String)
    (tps : List NormalizedOperation) (t : NormalizedOperation)
    (h : (bestCandidate index strict fp used tps).2.1 = some t) :
    used.contains t.op_id = false := by
  unfold bestCandidate at h
  exact bestCandidate_not_used index strict fp used tps (qf 0 1, none, [])
    (fun t' ht' => by simp at ht') t h

/-- Every pair the aligner loop emits names a third-party operation outside
the used set it started from. -/
theorem alignGo_not_used (index : Option HierarchyIndex) (strict : Bool)
    (ms : QF) (tps : List NormalizedOperation) :
    ∀ (fps : List NormalizedOperation) (used : List String) (p : AlignedPair),
    p ∈ alignGo index strict ms tps fps used → used.contains p.tp_op_id = false := by
  intro fps
  induction fps with
  | nil => intro used p hp; simp [alignGo] at hp
  | cons fp rest ih =>
    intro used p hp
    unfold alignGo at hp
    cases hob : (bestCandidate index strict fp used tps).2.1 with
    | none =>
      simp only [hob] at hp
      exact ih used p hp
    | some tpb =>
      simp only [hob] at hp
      split at hp
      · rcases List.mem_cons.mp hp with rfl | hmem
        · exact bestCandidate_sound index strict fp used tps tpb hob
        · have hrec := ih (tpb.op_id :: used) p hmem
          simp only [List.contains_cons, Bool.or_eq_false_iff] at hrec
          exact hrec.2
      · exact ih used p hp

/-- The aligner loop's committed third-party ids are pairwise distinct. -/
theorem alignGo_nodup (index : Option HierarchyIndex) (strict : Bool)
    (ms : QF) (tps : List NormalizedOperation) :
    ∀ (fps : List NormalizedOperation) (used : List String),
    ((alignGo index strict ms tps fps used).map (fun p => p.tp_op_id)).Nodup := by
  intro fps
  induction fps with
  | nil => intro used; simp [alignGo]
  | cons fp rest ih =>
    intro used
    unfold alignGo
    cases hob : (bestCandidate index strict fp used tps).2.1 with
    | none =>
      simp only [hob]
      exact ih used
    | some tpb =>
      simp only [hob]
      split
      · simp only [List.map_cons, List.nodup_cons]
        constructor
        · intro hmem
          rcases List.mem_map.mp hmem with ⟨q, hq, hqe⟩
          have hq2 := alignGo_not_used index strict ms tps rest (tpb.op_id :: used) q hq
          rw [hqe] at hq2
          simp [List.contains_cons] at hq2
        · exact ih (tpb.op_id :: used)
      · exact ih used

/-- Claim C6: for every input, no third-party operation id appears in more
than one aligned pair — the map of `tp_op_id` over the aligner's output has
no duplicates. -/
theorem C6_alignment_unique (fp_ops tp_ops : List NormalizedOperation)
    (index : Option HierarchyIndex) (strict : Bool) (min_score : QF) :
    ((align_operations fp_ops tp_ops index strict min_score).map
      (fun p => p.tp_op_id)).Nodup :=
  alignGo_nodup index strict min_score tp_ops fp_ops []

/-- Filtering by the stricter not-visited predicate yields at most as many
keys. -/
theorem filter_not_mem_mono (c : String) (vis : List String) :
    ∀ l : List String,
    (l.filter (fun k => decide (k ∉ c :: vis))).length
      ≤ (l.filter (fun k => decide (k ∉ vis))).length := by
  intro l
  induction l with
  | nil => simp
  | cons x l' ih =>
    by_cases hx : x ∈ c :: vis
    · have h1 : (decide (x ∉ c :: vis)) = false := by simp [hx]
      by_cases hxv : x ∈ vis
      · have h2 : (decide (x ∉ vis)) = false := by simp [hxv]
        simp only [List.filter_cons, h1, h2, Bool.false_eq_true, if_false]
        exact ih
      · have h2 : (decide (x ∉ vis)) = true := by simp [hxv]
        simp only [List.filter_cons, h1, h2, Bool.false_eq_true, if_false, if_true,
          List.length_cons]
        exact Nat.le_succ_of_le ih
    · have hxv : x ∉ vis := fun h => hx (List.mem_cons_of_mem c h)
      have h1 : (decide (x ∉ c :: vis)) = true := by simp [hx]
      have h2 : (decide (x ∉ vis)) = true := by simp [hxv]
      simp only [List.filter_cons, h1, h2, if_true, List.length_cons]
      exact Nat.succ_le_succ ih

/-- Marking an unvisited key of the list as visited strictly shrinks the
not-yet-visited selection. -/
theorem filter_remove_lt (c : String) (vis : List String) (hcv : c ∉ vis) :
    ∀ L : List String, c ∈ L →
    (L.filter (fun k => decide (k ∉ c :: vis))).length
      < (L.filter (fun k => decide (k ∉ vis))).length := by
  intro L
  induction L with
  | nil => intro h; simp at h
  | cons x L' ih =>
    intro hc
    by_cases hx : x = c
    · subst hx
      have h1 : (decide (x ∉ x :: vis)) = false := by simp
      have h2 : (decide (x ∉ vis)) = true := by simp [hcv]
      simp only [List.filter_cons, h1, h2, Bool.false_eq_true, if_false, if_true,
        List.length_cons]
      exact Nat.lt_succ_of_le (filter_not_mem_mono x vis L')
    · have hcL' : c ∈ L' := by
        rcases List.mem_cons.mp hc with h | h
        · exact absurd h.symm hx
        · exact h
      by_cases hxv : x ∈ vis
      · have h1 : (decide (x ∉ c :: vis)) = false := by
          simp [List.mem_cons_of_mem c hxv]
        have h2 : (decide (x ∉ vis)) = false := by simp [hxv]
        simp only [List.filter_cons, h1, h2, Bool.false_eq_true, if_false]
        exact ih hcL'
      · have hxcv : x ∉ c :: vis := by
          intro h
          rcases List.mem_cons.mp h with h' | h'
          · exact hx h'
          · exact hxv h'
        have h1 : (decide (x ∉ c :: vis)) = true := by simp [hxcv]
        have h2 : (decide (x ∉ vis)) = true := by simp [hxv]
        simp only [List.filter_cons, h1, h2, if_true, List.length_cons]
        exact Nat.succ_lt_succ (ih hcL')

/-- One step of the subsumption walk strictly decreases the number of
unvisited parent-map keys. -/
theorem walk_step_decrease (pm : List (String × String)) (current next : String)
    (visited : List String) (hget : pyDictGet pm current = some next)
    (hvis : current ∉ visited) :
    (unvisitedKeys pm (current :: visited)).length
      < (unvisitedKeys pm visited).length := by
  have hmem : current ∈ (pm.map Prod.fst).dedup := by
    rw [List.mem_dedup]
    unfold pyDictGet at hget
    cases hfind : pm.find? (fun kv => kv.1 == current) with
    | none => rw [hfind] at hget; simp at hget
    | some kv =>
      have h1 := List.find?_some hfind
      have h2 := List.mem_of_find?_eq_some hfind
      have hkv : kv.1 = current := by simpa using h1
      exact hkv ▸ List.mem_map_of_mem Prod.fst h2
  unfold unvisitedKeys
  exact filter_remove_lt current visited hvis _ hmem

/-- Any fuel beyond the number of unvisited parent-map keys lets the walk
reach a verdict: the visited-tracking loop never needs more iterations than
there are keys, cycles included. -/
theorem walkFuel_isSome (pm : List (String × String)) (parent : String) :
    ∀ (fuel : Nat) (current : String) (visited : List String),
    (unvisitedKeys pm visited).length < fuel →
    (walkFuel pm parent fuel current visited).isSome = true := by
  intro fuel
  induction fuel with
  | zero => intro current visited h; exact absurd h (Nat.not_lt_zero _)
  | succ n ih =>
    intro current visited h
    unfold walkFuel
    cases hget : pyDictGet pm current with
    | none => simp [hget]
    | some next =>
      simp only [hget]
      by_cases hvis : current ∈ visited
      · simp [hvis]
      · by_cases hpar : (next == parent) = true
        · simp [hvis, hpar]
        · have hd := walk_step_decrease pm current next visited hget hvis
          have hn : (unvisitedKeys pm (current :: visited)).length < n := by omega
          simp only [if_neg hvis, hpar, Bool.false_eq_true, if_false]
          exact ih next (current :: visited) hn

/-- Claim C7: the parent-chain walk of `is_subsumed` terminates on every
hierarchy index — with the budget `parent_map.length + 1` the fuelled loop
always returns a verdict, even when the parent map contains a cycle, because
the visited set grows at every iteration. -/
theorem C7_subsumption_terminates (index : HierarchyIndex) (parent child : String) :
    (walkFuel index.parent_map parent (index.parent_map.length + 1) child []).isSome
      = true := by
  apply walkFuel_isSome
  calc (unvisitedKeys index.parent_map []).length
      ≤ ((index.parent_map.map Prod.fst).dedup).length := List.length_filter_le _ _
    _ ≤ (index.parent_map.map Prod.fst).length := (List.dedup_sublist _).length_le
    _ = index.parent_map.length := List.length_map _ _
    _ < index.parent_map.length + 1 := Nat.lt_succ_self _

/-- Sorted insertion adds no new elements. -/
theorem mem_sortedInsert (x a : String) :
    ∀ l, x ∈ sortedInsert a l → x = a ∨ x ∈ l := by
  intro l
  induction l with
  | nil =>
    intro h
    simp only [sortedInsert] at h
    exact Or.inl (by simpa using h)
  | cons y ys ih =>
    intro h
    unfold sortedInsert at h
    split at h
    · rcases List.mem_cons.mp h with heq | h2
      · exact Or.inr (by rw [heq]; exact List.mem_cons_self y ys)
      · rcases ih h2 with h3 | h3
        · exact Or.inl h3
        · exact Or.inr (List.mem_cons_of_mem y h3)
    · rcases List.mem_cons.mp h with heq | h2
      · exact Or.inl heq
      · exact Or.inr h2

/-- Sorting preserves membership (right to left). -/
theorem mem_pySorted (x : String) : ∀ l, x ∈ pySorted l → x ∈ l := by
  intro l
  induction l with
  | nil => intro h; simp [pySorted] at h
  | cons y ys ih =>
    intro h
    simp only [pySorted, List.foldr_cons] at h
    rcases mem_sortedInsert x y _ h with heq | h2
    · exact (by rw [heq]; exact List.mem_cons_self y ys)
    · exact List.mem_cons_of_mem y (ih h2)

/-- Deduplication preserves membership (right to left). -/
theorem mem_dedupGo (x : String) :
    ∀ (l seen : List String), x ∈ dedupGo seen l → x ∈ l := by
  intro l
  induction l with
  | nil => intro seen h; simp [dedupGo] at h
  | cons y ys ih =>
    intro seen h
    unfold dedupGo at h
    split at h
    · exact List.mem_cons_of_mem y (ih seen h)
    · rcases List.mem_cons.mp h with heq | h2
      · exact (by rw [heq]; exact List.mem_cons_self y ys)
      · exact List.mem_cons_of_mem y (ih (y :: seen) h2)

/-- Deduplication preserves membership. -/
theorem mem_dedupFirst (x : String) (l : List String) (h : x ∈ dedupFirst l) :
    x ∈ l :=
  mem_dedupGo x l [] h

/-- A chooser-resolved label was picked from the supplied candidate list. -/
theorem normalize_label_chooser (label : Option String) (vocab : Vocabulary)
    (choices : List String) (chooser : Option NormalizeChooser) (f : NormalizedField)
    (heq : normalize_label label vocab (some choices) chooser = f)
    (hr : f.reason = "chooser") :
    ∃ u, f.normalized_uri = some u ∧ u ∈ choices := by
  unfold normalize_label at heq
  split at heq
  · rw [← heq] at hr
    exact absurd (show ("missing" : String) = "chooser" from hr) (by decide)
  · split at heq
    · rw [← heq] at hr
      exact absurd (show ("missing" : String) = "chooser" from hr) (by decide)
    · split at heq
      · rw [← heq] at hr
        exact absurd (show ("exact_label" : String) = "chooser" from hr) (by decide)
      · split at heq
        · rw [← heq] at hr
          exact absurd (show ("substring_match" : String) = "chooser" from hr) (by decide)
        · split at heq
          · rw [← heq] at hr
            exact absurd (show ("unknown" : String) = "chooser" from hr) (by decide)
          · split at heq
            · rw [← heq] at hr
              exact absurd (show ("unknown" : String) = "chooser" from hr) (by decide)
            · split at heq
              · rw [← heq] at hr
                exact absurd (show ("unknown" : String) = "chooser" from hr) (by decide)
              · split at heq
                · split at heq
                  · rw [← heq]
                    refine ⟨_, rfl, ?_⟩
                    simp_all
                  · rw [← heq] at hr
                    exact absurd (show ("unknown" : String) = "chooser" from hr) (by decide)
                · rw [← heq] at hr
                  exact absurd (show ("unknown" : String) = "chooser" from hr) (by decide)

/-- A chooser-resolved slot URI carries the slot's facet as its prefix,
because `_norm_slot` enumerates only facet-restricted candidates for the
chooser. -/
theorem norm_slot_chooser (slot_label : Option String) (vocab : Vocabulary)
    (facet : String) (chooser : Option NormalizeChooser)
    (h : (norm_slot slot_label vocab facet chooser).reason = "chooser") :
    ∃ u, (norm_slot slot_label vocab facet chooser).normalized_uri = some u
      ∧ strStartsWith u (facet ++ ":") = true := by
  have heq : normalize_label slot_label vocab
      (some (pySorted (dedupFirst (((build_index vocab).map (fun kv => kv.2)).filter
        (fun uri => strStartsWith uri (facet ++ ":")))))) chooser
      = norm_slot slot_label vocab facet chooser := by
    unfold norm_slot
    rfl
  obtain ⟨u, hu, hmem⟩ := normalize_label_chooser slot_label vocab _ chooser _ heq h
  exact ⟨u, hu,
    (List.mem_filter.mp (mem_dedupFirst u _ (mem_pySorted u _ hmem))).2⟩

/-- Claim C4, amended: only the chooser step of `normalize_operation` is
facet-restricted — whenever the action, subject or view field was resolved by
the chooser (`reason = "chooser"`), its URI starts with the matching facet
prefix; the exact-label and substring passes, by contrast, run over the full
cross-facet index and may resolve across facets (see the counterexample). -/
theorem C4_chooser_facet (op : OperationCandidate) (vocab : Vocabulary)
    (chooser : Option NormalizeChooser) :
    ((normalize_operation op vocab chooser).action.reason = "chooser" →
      ∃ u, (normalize_operation op vocab chooser).action.normalized_uri = some u
        ∧ strStartsWith u "action:" = true)
    ∧ ((normalize_operation op vocab chooser).subject.reason = "chooser" →
      ∃ u, (normalize_operation op vocab chooser).subject.normalized_uri = some u
        ∧ strStartsWith u "subject:" = true)
    ∧ ((normalize_operation op vocab chooser).view.reason = "chooser" →
      ∃ u, (normalize_operation op vocab chooser).view.normalized_uri = some u
        ∧ strStartsWith u "view:" = true) := by
  refine ⟨fun h => ?_, fun h => ?_, fun h => ?_⟩
  · exact norm_slot_chooser (op.action.map (fun ls : LabeledSpan => ls.label)) vocab
      "action" chooser h
  · exact norm_slot_chooser (op.subject.map (fun ls : LabeledSpan => ls.label)) vocab
      "subject" chooser h
  · exact norm_slot_chooser (op.view.map (fun ls : LabeledSpan => ls.label)) vocab
      "view" chooser h

/-- Claim C4, witness: a label missing every exact and substring key is
resolved by the chooser against action-facet candidates only. -/
theorem C4_witness :
    ∃ u, (normalize_operation zCand crossVocab (some pickHead)).action.normalized_uri
        = some u
      ∧ strStartsWith u "action:" = true :=
  (C4_chooser_facet zCand crossVocab (some pickHead)).1 (by decide)

/-- The one-step unfolding of `collapseWS` on a cons cell. -/
theorem collapseWS_cons (flag : Bool) (c : Char) (rest : List Char) :
    collapseWS flag (c :: rest)
      = if isPyWS c then
          (if flag then collapseWS true rest else ' ' :: collapseWS true rest)
        else c :: collapseWS false rest := rfl

/-- Characters of the collapsed list are the single space or non-whitespace
characters of the input. -/
theorem mem_collapseWS (c : Char) :
    ∀ (l : List Char) (flag : Bool), c ∈ collapseWS flag l →
    c = ' ' ∨ (c ∈ l ∧ isPyWS c = false) := by
  intro l
  induction l with
  | nil => intro flag h; simp [collapseWS] at h
  | cons x rest ih =>
    intro flag h
    unfold collapseWS at h
    split at h
    · split at h
      · rcases ih true h with h1 | ⟨h2, h3⟩
        · exact Or.inl h1
        · exact Or.inr ⟨List.mem_cons_of_mem x h2, h3⟩
      · rcases List.mem_cons.mp h with heq | h2
        · exact Or.inl heq
        · rcases ih true h2 with h1 | ⟨h3, h4⟩
          · exact Or.inl h1
          · exact Or.inr ⟨List.mem_cons_of_mem x h3, h4⟩
    · rename_i hws
      rcases List.mem_cons.mp h with heq | h2
      · refine Or.inr ⟨by rw [heq]; exact List.mem_cons_self x rest, ?_⟩
        rw [heq]
        exact Bool.not_eq_true _ ▸ hws
      · rcases ih false h2 with h1 | ⟨h3, h4⟩
        · exact Or.inl h1
        · exact Or.inr ⟨List.mem_cons_of_mem x h3, h4⟩

/-- The collapsed list never holds two adjacent whitespace characters, and
with the in-run flag set it starts with a non-whitespace character. -/
theorem collapseWS_noTwo :
    ∀ (l : List Char) (flag : Bool),
    noTwoWS (collapseWS flag l) = true ∧
    (flag = true → ∀ c, (collapseWS flag l).head? = some c → isPyWS c = false) := by
  intro l
  induction l with
  | nil =>
    intro flag
    refine ⟨rfl, fun _ c hc => ?_⟩
    simp [collapseWS] at hc
  | cons x rest ih =>
    intro flag
    by_cases hws : isPyWS x = true
    · cases flag with
      | true =>
        have hred : collapseWS true (x :: rest) = collapseWS true rest := by
          rw [collapseWS_cons, if_pos hws, if_pos rfl]
        rw [hred]
        exact ⟨(ih true).1, fun _ c hc => (ih true).2 rfl c hc⟩
      | false =>
        have hred : collapseWS false (x :: rest) = ' ' :: collapseWS true rest := by
          rw [collapseWS_cons, if_pos hws, if_neg (by simp)]
        rw [hred]
        constructor
        · cases hout : collapseWS true rest with
          | nil => rfl
          | cons d t =>
            have hd : isPyWS d = false := (ih true).2 rfl d (by rw [hout]; rfl)
            have ht : noTwoWS (d :: t) = true := by rw [← hout]; exact (ih true).1
            simp [noTwoWS, hd, ht]
        · intro hf
          simp at hf
    · have hred : collapseWS flag (x :: rest) = x :: collapseWS false rest := by
        rw [collapseWS_cons, if_neg (by simp [hws])]
      rw [hred]
      constructor
      · cases hout : collapseWS false rest with
        | nil => rfl
        | cons d t =>
          have ht : noTwoWS (d :: t) = true := by rw [← hout]; exact (ih false).1
          have hx : isPyWS x = false := Bool.not_eq_true _ ▸ hws
          simp [noTwoWS, hx, ht]
      · intro _ c hc
        have hcx : c = x := by simpa using hc.symm
        rw [hcx]
        exact Bool.not_eq_true _ ▸ hws

/-- Claim C9, amended: the canonical form of any label consists only of
lowercase ASCII letters, digits, underscores, hyphens and spaces (the kept
class of `_canon` is `[a-z0-9_\-\s]`, not bare alphanumerics), and whitespace
runs are collapsed so no two adjacent whitespace characters remain. -/
theorem C9_canon_charset (s : String) :
    ((canon s).data.all (fun c =>
      ('a' ≤ c && c ≤ 'z') || ('0' ≤ c && c ≤ '9') || c == '_' || c == '-'
        || c == ' ')) = true
    ∧ noTwoWS (canon s).data = true := by
  constructor
  · rw [List.all_eq_true]
    intro c hc
    have hc' : c ∈ collapseWS false
        ((stripChars (s.data.map pyLowerChar)).map
          (fun c => if canonKeep c then c else ' ')) := hc
    rcases mem_collapseWS c _ false hc' with heq | ⟨hmem, hnws⟩
    · rw [heq]; simp
    · rcases List.mem_map.mp hmem with ⟨c0, hc0, hceq⟩
      by_cases hk : canonKeep c0 = true
      · rw [if_pos hk] at hceq
        rw [← hceq] at hnws ⊢
        unfold canonKeep at hk
        simp only [hnws, Bool.or_false] at hk
        simp only [Bool.or_eq_true] at hk ⊢
        rcases hk with ((h | h) | h) | h
        · exact Or.inl (Or.inl (Or.inl (Or.inl h)))
        · exact Or.inl (Or.inl (Or.inl (Or.inr h)))
        · exact Or.inl (Or.inl (Or.inr h))
        · exact Or.inl (Or.inr h)
      · rw [if_neg hk] at hceq
        rw [← hceq]
        simp
  · exact (collapseWS_noTwo _ false).1
